import Mathlib

/-!
Verification of `vl671_fix_fw_checksum.py`.

The development shallowly embeds the three functions of the source file:
`crc8`, `crc32` and `fix_firmware_checksum`.  Bytes are modelled as natural
numbers (with explicit `&&& 0xFF`-style masks exactly where the Python code
masks), and the firmware file is modelled as a length together with a byte
function, with the POSIX read/write-at-offset semantics that Python's
`r+b` file objects provide (reads past end of file are truncated, writes
past end of file extend the file, zero-filling any gap).
-/

/-! ## The CRC-8 engine, translated from the source

Python (`crc8`): a 16-bit running value `v5`, per input byte
`v5 ^= byte << 8`, then eight rounds of `if v5 & 0x8000: v5 ^= 0x8380`
followed by `v5 *= 2`; after the eight rounds (once per byte)
`v5 &= 0xFFFF`; the result is `(v5 >> 8) & 0xFF`. -/

/-- One round of the CRC-8 inner loop, exactly as in the code: the mask to
16 bits is applied only after all 8 rounds of a byte. -/
def crc8_round (v : Nat) : Nat :=
  (if v &&& 0x8000 ≠ 0 then v ^^^ 0x8380 else v) * 2

/-- Processing of one input byte in `crc8`: XOR into the upper 8 bits,
8 rounds, then the once-per-byte mask `v5 &= 0xFFFF`. -/
def crc8_step (v5 byte : Nat) : Nat :=
  (crc8_round^[8] (v5 ^^^ (byte <<< 8))) &&& 0xFFFF

/-- The `crc8` function of the source. -/
def crc8 (data : List Nat) : Nat :=
  ((data.foldl crc8_step 0) >>> 8) &&& 0xFF

/-- One round of the reference bit-serial algorithm of spec §4.1, which
masks to 16 bits after every shift. -/
def crc8_round_ref (v : Nat) : Nat :=
  ((if v &&& 0x8000 ≠ 0 then v ^^^ 0x8380 else v) * 2) &&& 0xFFFF

/-- One byte of the reference algorithm of spec §4.1. -/
def crc8_step_ref (v5 byte : Nat) : Nat :=
  crc8_round_ref^[8] (v5 ^^^ (byte <<< 8))

/-- The reference bit-serial CRC-8 of spec §4.1 (16-bit accumulator kept
masked after every single shift). -/
def crc8_ref (data : List Nat) : Nat :=
  ((data.foldl crc8_step_ref 0) >>> 8) &&& 0xFF

/-! ## The CRC-32 engine, translated from the source

Python (`crc32`): `crc = init`; per byte `crc ^= byte << 24` then eight
rounds of `crc = (crc << 1) ^ poly` if bit 31 is set else `crc <<= 1`,
each round followed by `crc &= 0xFFFFFFFF`; finally `return crc ^ xorout`
(note: no mask on this final XOR). -/

/-- One round of the CRC-32 inner loop, as in the code (mask after every
round). -/
def crc32_round (poly v : Nat) : Nat :=
  (if v &&& 0x80000000 ≠ 0 then (v <<< 1) ^^^ poly else v <<< 1) &&& 0xFFFFFFFF

/-- Processing of one input byte in `crc32`. -/
def crc32_step (poly crc byte : Nat) : Nat :=
  (crc32_round poly)^[8] (crc ^^^ (byte <<< 24))

/-- The `crc32` function of the source.  The Python defaults are
`poly = 0x04C11DB7`, `init = 0`, `xorout = 0`; callers of this definition
pass them explicitly. -/
def crc32 (data : List Nat) (poly init xorout : Nat) : Nat :=
  (data.foldl (crc32_step poly) init) ^^^ xorout

/-- The reference CRC-32 of spec §4.2: same accumulator loop, but the spec
returns "the masked 32-bit result" of XORing the accumulator with the
output mask. -/
def crc32_ref (data : List Nat) (poly init xorout : Nat) : Nat :=
  ((data.foldl (crc32_step poly) init) ^^^ xorout) &&& 0xFFFFFFFF

/-! ## The firmware file and the patch orchestrator

A file opened `r+b` is modelled as a length and a byte function; all reads
go through `FwFile.byte`, which returns 0 outside the file (so the stored
function is never observed beyond `len`).  `FwFile.write` has the POSIX
semantics of `seek`+`write`: it overwrites in place, extends the file when
the written range runs past the end, and zero-fills any gap left by a seek
past the end. -/

structure FwFile where
  len : Nat
  data : Nat → Nat

/-- The byte of `f` at offset `i` (0 outside the file). -/
def FwFile.byte (f : FwFile) (i : Nat) : Nat :=
  if i < f.len then f.data i else 0

/-- The effect of `seek pos` followed by `write bs`. -/
def FwFile.write (f : FwFile) (pos : Nat) (bs : List Nat) : FwFile :=
  ⟨max f.len (pos + bs.length),
    fun i => if pos ≤ i ∧ i < pos + bs.length then bs.getD (i - pos) 0 else f.byte i⟩

/-- The effect of `seek pos` followed by `read n`: the bytes from `pos` up to at
most the end of the file, so fewer than `n` bytes when the file is short. -/
def FwFile.readAt (f : FwFile) (pos n : Nat) : List Nat :=
  (List.range (min n (f.len - pos))).map fun i => f.byte (pos + i)

/-- A file built from a concrete list of bytes. -/
def FwFile.ofList (l : List Nat) : FwFile :=
  ⟨l.length, fun i => l.getD i 0⟩

/-- Byte-identity of two files: same length and the same byte at every
offset. -/
def FwFile.Same (f g : FwFile) : Prop :=
  f.len = g.len ∧ ∀ i, f.byte i = g.byte i

/-- The big-endian 16-bit payload-offset field at bytes 4–5 of the header
(`struct.unpack('>H', ...)`). -/
def payloadOffset (f : FwFile) : Nat :=
  256 * f.byte 4 + f.byte 5

/-- The big-endian 16-bit payload-size field at bytes 6–7 of the header. -/
def payloadSize (f : FwFile) : Nat :=
  256 * f.byte 6 + f.byte 7

/-- The value of `struct.pack('<I', n)`: the 4 little-endian bytes of a 32-bit value. -/
def toLE32 (n : Nat) : List Nat :=
  [n % 256, n / 256 % 256, n / 65536 % 256, n / 16777216 % 256]

/-- The outcome of one run of `fix_firmware_checksum`: success, or one of
the three `ValueError`s the code raises. -/
inductive FixOutcome where
  | ok : FixOutcome
  | headerTooSmall : FixOutcome
  | payloadSizeTooSmall : FixOutcome
  | payloadTruncated : FixOutcome
deriving DecidableEq

/-- The file state and outcome after a run (the code catches the raised
errors, leaving the file in whatever state the completed writes produced). -/
structure FixResult where
  file : FwFile
  outcome : FixOutcome

/-- The `fix_firmware_checksum` function of the source, as the file
transformation it performs: read the 31-byte header (failing if short),
write its CRC-8 at offset `0x1F`, read the payload descriptor from bytes
4–7, validate `payload_size >= 4`, read `payload_size - 4` bytes of
payload at `payload_offset` (failing if fewer are available), and write
the little-endian CRC-32 of the payload at
`payload_offset + payload_size - 4`. -/
def fix_firmware_checksum (f : FwFile) : FixResult :=
  let header := f.readAt 0 0x1F
  if header.length < 0x1F then ⟨f, FixOutcome.headerTooSmall⟩
  else
    let f1 := f.write 0x1F [crc8 header]
    let po := payloadOffset f1
    let ps := payloadSize f1
    if ps < 4 then ⟨f1, FixOutcome.payloadSizeTooSmall⟩
    else
      let payload := f1.readAt po (ps - 4)
      if payload.length ≠ ps - 4 then ⟨f1, FixOutcome.payloadTruncated⟩
      else
        ⟨f1.write (po + ps - 4) (toLE32 (crc32 payload 0x04C11DB7 0 0)),
          FixOutcome.ok⟩

/-! ## Named intermediate values of a run

These name the expressions that appear in `fix_firmware_checksum` itself,
so that the theorems below can speak about them compactly. -/

/-- The CRC-8 the run computes over the 31-byte header. -/
def headerCrc (f : FwFile) : Nat :=
  crc8 (f.readAt 0 0x1F)

/-- The file after the header-CRC write at offset `0x1F`. -/
def afterHeader (f : FwFile) : FwFile :=
  f.write 0x1F [headerCrc f]

/-- The payload data the run reads (from the file after the header write). -/
def payloadData (f : FwFile) : List Nat :=
  (afterHeader f).readAt (payloadOffset f) (payloadSize f - 4)

/-- The 4 little-endian bytes of the payload CRC-32 the run writes. -/
def slotBytes (f : FwFile) : List Nat :=
  toLE32 (crc32 (payloadData f) 0x04C11DB7 0 0)

/-- The offset of the payload CRC-32 slot. -/
def slotPos (f : FwFile) : Nat :=
  payloadOffset f + payloadSize f - 4


/-! ## Equivalence of the two mask placements in CRC-8 -/

/-- Masking to 16 bits commutes with one CRC-8 round. -/
theorem crc8_round_ref_and (v : Nat) :
    crc8_round_ref (v &&& 0xFFFF) = (crc8_round v) &&& 0xFFFF := by
  unfold crc8_round_ref crc8_round
  have hbit : (v &&& 0xFFFF) &&& 0x8000 = v &&& 0x8000 := by
    rw [Nat.and_assoc]
    congr 1
  have hmul : ∀ x : Nat, ((x &&& 0xFFFF) * 2) &&& 0xFFFF = (x * 2) &&& 0xFFFF := by
    intro x
    have h16 : ∀ z : Nat, z &&& 0xFFFF = z % 65536 := by
      intro z
      have := Nat.and_pow_two_sub_one_eq_mod z 16
      norm_num at this
      exact this
    rw [h16, h16, h16]
    omega
  rw [hbit]
  by_cases h : v &&& 0x8000 ≠ 0
  · rw [if_pos h, if_pos h]
    have hxor : (v &&& 0xFFFF) ^^^ 0x8380 = (v ^^^ 0x8380) &&& 0xFFFF := by
      rw [Nat.and_xor_distrib_right]
      congr 1
    rw [hxor, hmul]
  · rw [if_neg h, if_neg h, hmul]

/-- Masking to 16 bits commutes with any number of CRC-8 rounds. -/
theorem crc8_round_ref_iterate (n v : Nat) :
    crc8_round_ref^[n] (v &&& 0xFFFF) = (crc8_round^[n] v) &&& 0xFFFF := by
  induction n generalizing v with
  | zero => simp
  | succ n ih =>
      rw [Function.iterate_succ_apply, Function.iterate_succ_apply,
        crc8_round_ref_and, ih]

/-- Per-byte equivalence: on a masked accumulator and a genuine byte, the
per-byte step of the code and of the reference agree, and the code's step
leaves the accumulator masked. -/
theorem crc8_step_ref_eq (v byte : Nat) (hv : v < 65536) (hb : byte < 256) :
    crc8_step_ref v byte = crc8_step v byte ∧ crc8_step v byte < 65536 := by
  have hx : v ^^^ (byte <<< 8) < 65536 := by
    have h1 : v < 2 ^ 16 := hv
    have h2 : byte <<< 8 < 2 ^ 16 := by
      rw [Nat.shiftLeft_eq]
      omega
    exact Nat.xor_lt_two_pow h1 h2
  constructor
  · unfold crc8_step_ref crc8_step
    have hm : v ^^^ (byte <<< 8) = (v ^^^ (byte <<< 8)) &&& 0xFFFF := by
      have h1 := Nat.and_pow_two_sub_one_eq_mod (v ^^^ (byte <<< 8)) 16
      norm_num at h1
      rw [h1, Nat.mod_eq_of_lt hx]
    rw [← crc8_round_ref_iterate, ← hm]
  · unfold crc8_step
    have : (crc8_round^[8] (v ^^^ (byte <<< 8))) &&& 0xFFFF ≤ 0xFFFF :=
      Nat.and_le_right
    omega

/-- The fold of the code and of the reference agree on byte sequences,
starting from any masked accumulator. -/
theorem crc8_foldl_eq (data : List Nat) (hdata : ∀ b ∈ data, b < 256) :
    ∀ v : Nat, v < 65536 →
      data.foldl crc8_step_ref v = data.foldl crc8_step v ∧
        data.foldl crc8_step v < 65536 := by
  induction data with
  | nil => intro v hv; exact ⟨rfl, hv⟩
  | cons b rest ih =>
      intro v hv
      have hb : b < 256 := hdata b (List.mem_cons_self b rest)
      have hrest : ∀ x ∈ rest, x < 256 := fun x hx => hdata x (List.mem_cons_of_mem b hx)
      obtain ⟨hstep, hlt⟩ := crc8_step_ref_eq v b hv hb
      simp only [List.foldl_cons]
      rw [hstep]
      exact ih hrest (crc8_step v b) hlt

/-- C1: the `crc8` function of the code returns the value of the reference
bit-serial algorithm of spec §4.1 (which masks the 16-bit accumulator after
every shift, while the code masks only once per input byte) on every byte
sequence, and `crc8` of the empty sequence is 0. -/
theorem crc8_matches_spec_reference (data : List Nat) (h : ∀ b ∈ data, b < 256) :
    crc8 data = crc8_ref data ∧ crc8 [] = 0 := by
  refine ⟨?_, rfl⟩
  unfold crc8 crc8_ref
  obtain ⟨he, _⟩ := crc8_foldl_eq data h 0 (by norm_num)
  rw [he]

/-- Witness for C1 at the concrete byte sequence `[1, 2, 255]`. -/
theorem crc8_matches_spec_reference_witness :
    (∀ b ∈ [1, 2, 255], b < 256) ∧
      (crc8 [1, 2, 255] = crc8_ref [1, 2, 255] ∧ crc8 [] = 0) :=
  ⟨by decide, crc8_matches_spec_reference [1, 2, 255] (by decide)⟩

/-! ## CRC-32: boundedness of the accumulator loop -/

/-- Every CRC-32 round of the code masks its result to 32 bits. -/
theorem crc32_round_lt (poly v : Nat) : crc32_round poly v < 4294967296 := by
  unfold crc32_round
  have h : (if v &&& 0x80000000 ≠ 0 then (v <<< 1) ^^^ poly else v <<< 1) &&& 0xFFFFFFFF
      ≤ 0xFFFFFFFF := Nat.and_le_right
  omega

/-- The CRC-32 accumulator stays below `2^32` when the initial value does. -/
theorem crc32_foldl_lt (data : List Nat) (poly : Nat) :
    ∀ init : Nat, init < 4294967296 →
      data.foldl (crc32_step poly) init < 4294967296 := by
  induction data with
  | nil => intro init h; exact h
  | cons b rest ih =>
      intro init h
      simp only [List.foldl_cons]
      apply ih
      unfold crc32_step
      rw [show (8 : Nat) = 7 + 1 from rfl, Function.iterate_succ_apply']
      exact crc32_round_lt poly _

/-- C2 (amended): for 32-bit `init` and `xorout` parameters, the `crc32`
function of the code returns the value of the reference algorithm of spec
§4.2, that value is a masked 32-bit result, and `crc32` of the empty
sequence is `init ^^^ xorout`.  (For `init` or `xorout` of 32 bits or
more the code's missing final mask makes the claim fail, see the
counterexample.) -/
theorem crc32_matches_spec_reference (data : List Nat) (poly init xorout : Nat)
    (hinit : init < 4294967296) (hxor : xorout < 4294967296) :
    crc32 data poly init xorout = crc32_ref data poly init xorout ∧
      crc32 data poly init xorout < 4294967296 ∧
      crc32 [] poly init xorout = init ^^^ xorout := by
  have hfold : data.foldl (crc32_step poly) init < 4294967296 :=
    crc32_foldl_lt data poly init hinit
  have hlt : crc32 data poly init xorout < 4294967296 := by
    unfold crc32
    have h2 : (4294967296 : Nat) = 2 ^ 32 := by norm_num
    rw [h2] at hfold hxor ⊢
    exact Nat.xor_lt_two_pow hfold hxor
  refine ⟨?_, hlt, rfl⟩
  unfold crc32_ref
  have h1 := Nat.and_pow_two_sub_one_eq_mod
    ((data.foldl (crc32_step poly) init) ^^^ xorout) 32
  norm_num at h1
  unfold crc32
  rw [h1]
  exact (Nat.mod_eq_of_lt hlt).symm

/-- Witness for C2 at the concrete input `[5]` with the default polynomial,
`init = 0` and `xorout = 7`. -/
theorem crc32_matches_spec_reference_witness :
    (0 : Nat) < 4294967296 ∧ (7 : Nat) < 4294967296 ∧
      (crc32 [5] 0x04C11DB7 0 7 = crc32_ref [5] 0x04C11DB7 0 7 ∧
        crc32 [5] 0x04C11DB7 0 7 < 4294967296 ∧
        crc32 [] 0x04C11DB7 0 7 = 0 ^^^ 7) :=
  ⟨by decide, by decide,
    crc32_matches_spec_reference [5] 0x04C11DB7 0 7 (by decide) (by decide)⟩

/-- Counterexample to C2 as stated: with the 33-bit initial value `2^32`
(and empty data) the code returns `2^32` itself, while the reference
algorithm of spec §4.2 returns the masked value `0`; the code's result is
not a masked 32-bit value. -/
theorem crc32_unmasked_cex :
    crc32 [] 0x04C11DB7 4294967296 0 ≠ crc32_ref [] 0x04C11DB7 4294967296 0 ∧
      ¬ crc32 [] 0x04C11DB7 4294967296 0 < 4294967296 := by
  constructor
  · decide
  · decide

/-- C9: the `crc32` function is linear in its output-XOR-mask parameter:
`crc32 data poly init xorout = crc32 data poly init 0 ^^^ xorout` for all
inputs and parameters. -/
theorem crc32_xorout_linear (data : List Nat) (poly init xorout : Nat) :
    crc32 data poly init xorout = crc32 data poly init 0 ^^^ xorout := by
  unfold crc32
  rw [Nat.xor_zero]

/-! ## Byte-level facts about the file model -/

theorem FwFile.byte_of_le {f : FwFile} {i : Nat} (h : f.len ≤ i) : f.byte i = 0 := by
  unfold FwFile.byte
  rw [if_neg (Nat.not_lt.2 h)]

theorem FwFile.write_len (f : FwFile) (pos : Nat) (bs : List Nat) :
    (f.write pos bs).len = max f.len (pos + bs.length) := rfl

/-- The byte of a written file: the written bytes inside the written range,
the old byte elsewhere (0-valued both in the zero-filled gap and past the
end). -/
theorem FwFile.write_byte (f : FwFile) (pos : Nat) (bs : List Nat) (i : Nat) :
    (f.write pos bs).byte i =
      if pos ≤ i ∧ i < pos + bs.length then bs.getD (i - pos) 0 else f.byte i := by
  show (if i < max f.len (pos + bs.length) then
      (if pos ≤ i ∧ i < pos + bs.length then bs.getD (i - pos) 0 else f.byte i) else 0) = _
  split_ifs with h1 h2 h3
  · rfl
  · rfl
  · omega
  · rw [FwFile.byte_of_le]
    omega

theorem FwFile.write_byte_lt (f : FwFile) (pos : Nat) (bs : List Nat) {i : Nat}
    (h : i < pos) : (f.write pos bs).byte i = f.byte i := by
  rw [FwFile.write_byte, if_neg]
  omega

theorem FwFile.write_byte_ge (f : FwFile) (pos : Nat) (bs : List Nat) {i : Nat}
    (h : pos + bs.length ≤ i) : (f.write pos bs).byte i = f.byte i := by
  rw [FwFile.write_byte, if_neg]
  omega

theorem FwFile.write_byte_in (f : FwFile) (pos : Nat) (bs : List Nat) {i : Nat}
    (h1 : pos ≤ i) (h2 : i < pos + bs.length) :
    (f.write pos bs).byte i = bs.getD (i - pos) 0 := by
  rw [FwFile.write_byte, if_pos ⟨h1, h2⟩]

theorem FwFile.readAt_length (f : FwFile) (pos n : Nat) :
    (f.readAt pos n).length = min n (f.len - pos) := by
  unfold FwFile.readAt
  rw [List.length_map, List.length_range]

theorem FwFile.readAt_getD (f : FwFile) (pos n i : Nat) :
    (f.readAt pos n).getD i 0 =
      if i < min n (f.len - pos) then f.byte (pos + i) else 0 := by
  unfold FwFile.readAt
  by_cases h : i < min n (f.len - pos)
  · rw [if_pos h, List.getD_eq_getElem?_getD, List.getElem?_map,
      List.getElem?_range h]
    rfl
  · rw [if_neg h, List.getD_eq_getElem?_getD, List.getElem?_eq_none]
    · rfl
    · rw [List.length_map, List.length_range]
      omega

/-- Two files that can supply the same number of bytes at `pos` and agree
there byte-for-byte yield the same read. -/
theorem FwFile.readAt_congr {f g : FwFile} {pos n : Nat}
    (hk : min n (f.len - pos) = min n (g.len - pos))
    (hb : ∀ i, i < n → f.byte (pos + i) = g.byte (pos + i)) :
    f.readAt pos n = g.readAt pos n := by
  unfold FwFile.readAt
  rw [hk]
  apply List.map_congr_left
  intro a ha
  rw [List.mem_range] at ha
  exact hb a (by omega)

/-- A write strictly above a low segment of the file does not change reads
of that segment. -/
theorem FwFile.readAt_write_high {f : FwFile} {pos n wpos : Nat} (bs : List Nat)
    (h1 : pos + n ≤ wpos) (h2 : pos + n ≤ f.len) :
    (f.write wpos bs).readAt pos n = f.readAt pos n := by
  apply FwFile.readAt_congr
  · rw [FwFile.write_len]
    omega
  · intro i hi
    rw [FwFile.write_byte_lt]
    omega

theorem FwFile.Same.refl (f : FwFile) : FwFile.Same f f := ⟨rfl, fun _ => rfl⟩

/-- Writing back bytes the file already holds is a no-op up to
byte-identity. -/
theorem FwFile.write_same {f : FwFile} {pos : Nat} {bs : List Nat}
    (h1 : pos + bs.length ≤ f.len)
    (h2 : ∀ i, pos ≤ i → i < pos + bs.length → f.byte i = bs.getD (i - pos) 0) :
    FwFile.Same (f.write pos bs) f := by
  constructor
  · rw [FwFile.write_len]
    omega
  · intro i
    rw [FwFile.write_byte]
    split_ifs with h
    · exact (h2 i h.1 h.2).symm
    · rfl

/-! ## Unfolding `fix_firmware_checksum` along its four paths -/

theorem payloadOffset_write (f : FwFile) {pos : Nat} (bs : List Nat) (h : 8 ≤ pos) :
    payloadOffset (f.write pos bs) = payloadOffset f := by
  unfold payloadOffset
  rw [FwFile.write_byte_lt f pos bs (by omega), FwFile.write_byte_lt f pos bs (by omega)]

theorem payloadSize_write (f : FwFile) {pos : Nat} (bs : List Nat) (h : 8 ≤ pos) :
    payloadSize (f.write pos bs) = payloadSize f := by
  unfold payloadSize
  rw [FwFile.write_byte_lt f pos bs (by omega), FwFile.write_byte_lt f pos bs (by omega)]

theorem fix_eq_headerTooSmall {f : FwFile} (h : f.len < 0x1F) :
    fix_firmware_checksum f = ⟨f, FixOutcome.headerTooSmall⟩ := by
  simp only [fix_firmware_checksum, FwFile.readAt_length]
  rw [if_pos (by omega)]

theorem fix_eq_sizeTooSmall {f : FwFile} (h1 : 0x1F ≤ f.len) (h2 : payloadSize f < 4) :
    fix_firmware_checksum f =
      ⟨f.write 0x1F [crc8 (f.readAt 0 0x1F)], FixOutcome.payloadSizeTooSmall⟩ := by
  simp only [fix_firmware_checksum, FwFile.readAt_length]
  rw [if_neg (by omega), payloadSize_write f _ (by omega), if_pos h2]

theorem fix_eq_truncated {f : FwFile} (h1 : 0x1F ≤ f.len) (h2 : 4 ≤ payloadSize f)
    (h3 : ((f.write 0x1F [crc8 (f.readAt 0 0x1F)]).readAt (payloadOffset f)
        (payloadSize f - 4)).length ≠ payloadSize f - 4) :
    fix_firmware_checksum f =
      ⟨f.write 0x1F [crc8 (f.readAt 0 0x1F)], FixOutcome.payloadTruncated⟩ := by
  simp only [fix_firmware_checksum, FwFile.readAt_length]
  rw [if_neg (by omega), payloadSize_write f _ (by omega),
    payloadOffset_write f _ (by omega), if_neg (by omega)]
  rw [FwFile.readAt_length] at h3
  rw [if_pos h3]

theorem fix_eq_ok {f : FwFile} (h1 : 0x1F ≤ f.len) (h2 : 4 ≤ payloadSize f)
    (h3 : ((f.write 0x1F [crc8 (f.readAt 0 0x1F)]).readAt (payloadOffset f)
        (payloadSize f - 4)).length = payloadSize f - 4) :
    fix_firmware_checksum f =
      ⟨(f.write 0x1F [crc8 (f.readAt 0 0x1F)]).write
          (payloadOffset f + payloadSize f - 4)
          (toLE32 (crc32 ((f.write 0x1F [crc8 (f.readAt 0 0x1F)]).readAt
            (payloadOffset f) (payloadSize f - 4)) 0x04C11DB7 0 0)),
        FixOutcome.ok⟩ := by
  simp only [fix_firmware_checksum, FwFile.readAt_length]
  rw [if_neg (by omega), payloadSize_write f _ (by omega),
    payloadOffset_write f _ (by omega), if_neg (by omega)]
  rw [FwFile.readAt_length] at h3
  rw [if_neg (by omega)]

/-- Inversion: a successful run passed all three validations. -/
theorem fix_ok_inv {f : FwFile} (h : (fix_firmware_checksum f).outcome = FixOutcome.ok) :
    0x1F ≤ f.len ∧ 4 ≤ payloadSize f ∧
      ((f.write 0x1F [crc8 (f.readAt 0 0x1F)]).readAt (payloadOffset f)
        (payloadSize f - 4)).length = payloadSize f - 4 := by
  by_cases hl : f.len < 0x1F
  · rw [fix_eq_headerTooSmall hl] at h
    simp at h
  · by_cases hs : payloadSize f < 4
    · rw [fix_eq_sizeTooSmall (by omega) hs] at h
      simp at h
    · by_cases ht : ((f.write 0x1F [crc8 (f.readAt 0 0x1F)]).readAt (payloadOffset f)
          (payloadSize f - 4)).length = payloadSize f - 4
      · exact ⟨by omega, by omega, ht⟩
      · rw [fix_eq_truncated (by omega) (by omega) ht] at h
        simp at h

/-- C8: on a file shorter than 31 bytes the run fails with the
header-too-short size-validation error and performs no write at all: the
resulting file is the input file itself. -/
theorem fix_short_header_no_write (f : FwFile) (h : f.len < 0x1F) :
    fix_firmware_checksum f = ⟨f, FixOutcome.headerTooSmall⟩ :=
  fix_eq_headerTooSmall h

/-- Witness for C8 at a concrete 30-byte file. -/
theorem fix_short_header_no_write_witness :
    (FwFile.ofList (List.replicate 30 0)).len < 0x1F ∧
      fix_firmware_checksum (FwFile.ofList (List.replicate 30 0)) =
        ⟨FwFile.ofList (List.replicate 30 0), FixOutcome.headerTooSmall⟩ :=
  ⟨by decide, fix_short_header_no_write (FwFile.ofList (List.replicate 30 0)) (by decide)⟩

/-- C7: when the header read succeeds but the declared payload size is
less than 4, the run fails with the size-validation error in a state where
byte `0x1F` already holds the freshly computed CRC-8 of the header and
every other byte is unchanged. -/
theorem fix_small_payload_partial_write (f : FwFile) (h1 : 0x1F ≤ f.len)
    (h2 : payloadSize f < 4) :
    (fix_firmware_checksum f).outcome = FixOutcome.payloadSizeTooSmall ∧
      (fix_firmware_checksum f).file.byte 0x1F = crc8 (f.readAt 0 0x1F) ∧
      ∀ i, i ≠ 0x1F → (fix_firmware_checksum f).file.byte i = f.byte i := by
  rw [fix_eq_sizeTooSmall h1 h2]
  refine ⟨rfl, ?_, ?_⟩
  · rw [FwFile.write_byte_in f 0x1F _ (by omega) (by simp)]
    rfl
  · intro i hi
    rw [FwFile.write_byte, if_neg]
    simp only [List.length_cons, List.length_nil]
    omega

/-- Witness for C7 at a concrete 31-byte file declaring `payload_size = 0`. -/
theorem fix_small_payload_partial_write_witness :
    0x1F ≤ (FwFile.ofList (List.replicate 31 0)).len ∧
      payloadSize (FwFile.ofList (List.replicate 31 0)) < 4 ∧
      ((fix_firmware_checksum (FwFile.ofList (List.replicate 31 0))).outcome =
          FixOutcome.payloadSizeTooSmall ∧
        (fix_firmware_checksum (FwFile.ofList (List.replicate 31 0))).file.byte 0x1F =
          crc8 ((FwFile.ofList (List.replicate 31 0)).readAt 0 0x1F) ∧
        ∀ i, i ≠ 0x1F →
          (fix_firmware_checksum (FwFile.ofList (List.replicate 31 0))).file.byte i =
            (FwFile.ofList (List.replicate 31 0)).byte i) :=
  ⟨by decide, by decide,
    fix_small_payload_partial_write (FwFile.ofList (List.replicate 31 0))
      (by decide) (by decide)⟩

/-- C5 (amended): when the header is readable, `payload_size >= 4`, and
fewer than `payload_size - 4` bytes of payload data are available at
`payload_offset` (the data region runs past the end of the file as it
stands after the header write, whose length is `max len 0x20`), the run
fails with the truncated-file error and the CRC-32 slot is not written:
the resulting file carries exactly the header CRC-8 write and nothing
else. -/
theorem fix_truncated_payload (f : FwFile) (h1 : 0x1F ≤ f.len)
    (h2 : 4 ≤ payloadSize f)
    (h3 : max f.len 0x20 - payloadOffset f < payloadSize f - 4) :
    (fix_firmware_checksum f).outcome = FixOutcome.payloadTruncated ∧
      (fix_firmware_checksum f).file = f.write 0x1F [crc8 (f.readAt 0 0x1F)] := by
  have hlen : (f.write 0x1F [crc8 (f.readAt 0 0x1F)]).len = max f.len 0x20 := by
    rw [FwFile.write_len]
    simp only [List.length_cons, List.length_nil]
  have ht : ((f.write 0x1F [crc8 (f.readAt 0 0x1F)]).readAt (payloadOffset f)
      (payloadSize f - 4)).length ≠ payloadSize f - 4 := by
    rw [FwFile.readAt_length, hlen]
    omega
  rw [fix_eq_truncated h1 h2 ht]
  exact ⟨rfl, rfl⟩

/-- Witness for C5 at a concrete 32-byte file declaring
`payload_offset = 32`, `payload_size = 12`. -/
theorem fix_truncated_payload_witness :
    0x1F ≤ (FwFile.ofList ([0, 0, 0, 0, 0, 32, 0, 12] ++ List.replicate 24 0)).len ∧
      4 ≤ payloadSize (FwFile.ofList ([0, 0, 0, 0, 0, 32, 0, 12] ++ List.replicate 24 0)) ∧
      ((fix_firmware_checksum
            (FwFile.ofList ([0, 0, 0, 0, 0, 32, 0, 12] ++ List.replicate 24 0))).outcome =
          FixOutcome.payloadTruncated ∧
        (fix_firmware_checksum
            (FwFile.ofList ([0, 0, 0, 0, 0, 32, 0, 12] ++ List.replicate 24 0))).file =
          (FwFile.ofList ([0, 0, 0, 0, 0, 32, 0, 12] ++ List.replicate 24 0)).write 0x1F
            [crc8 ((FwFile.ofList ([0, 0, 0, 0, 0, 32, 0, 12] ++
              List.replicate 24 0)).readAt 0 0x1F)]) :=
  ⟨by decide, by decide,
    fix_truncated_payload (FwFile.ofList ([0, 0, 0, 0, 0, 32, 0, 12] ++ List.replicate 24 0))
      (by decide) (by decide) (by decide)⟩

/-- Counterexample to C5 as stated: a 36-byte file declaring
`payload_offset = 32`, `payload_size = 8`.  The full payload region
`[32, 40)` extends past the end of the file — only its trailing CRC-32
slot is missing — yet the run succeeds (and extends the file to 40
bytes) instead of failing with a truncated-file error. -/
theorem fix_truncated_payload_cex :
    4 ≤ payloadSize (FwFile.ofList ([0, 0, 0, 0, 0, 32, 0, 8] ++ List.replicate 28 0)) ∧
      (FwFile.ofList ([0, 0, 0, 0, 0, 32, 0, 8] ++ List.replicate 28 0)).len <
        payloadOffset (FwFile.ofList ([0, 0, 0, 0, 0, 32, 0, 8] ++ List.replicate 28 0)) +
          payloadSize (FwFile.ofList ([0, 0, 0, 0, 0, 32, 0, 8] ++ List.replicate 28 0)) ∧
      (fix_firmware_checksum
          (FwFile.ofList ([0, 0, 0, 0, 0, 32, 0, 8] ++ List.replicate 28 0))).outcome =
        FixOutcome.ok := by
  refine ⟨by decide, by decide, by decide⟩

/-- C6 (amended): the patch operation preserves the length of every file
of at least `0x20` bytes whose declared payload region, on a successful
run, lies inside the file.  (A 31-byte file is extended to 32 by the
header-CRC write, and a successful run whose payload region runs past the
end of the file extends it — see the counterexample.) -/
theorem fix_preserves_length (f : FwFile) (h1 : 0x20 ≤ f.len)
    (h2 : (fix_firmware_checksum f).outcome = FixOutcome.ok →
      payloadOffset f + payloadSize f ≤ f.len) :
    (fix_firmware_checksum f).file.len = f.len := by
  by_cases hs : payloadSize f < 4
  · rw [fix_eq_sizeTooSmall (by omega) hs]
    rw [FwFile.write_len]
    simp only [List.length_cons, List.length_nil]
    omega
  · by_cases ht : ((f.write 0x1F [crc8 (f.readAt 0 0x1F)]).readAt (payloadOffset f)
        (payloadSize f - 4)).length = payloadSize f - 4
    · have hok := fix_eq_ok (f := f) (by omega) (by omega) ht
      have hle := h2 (by rw [hok])
      rw [hok]
      rw [FwFile.write_len, FwFile.write_len]
      simp only [toLE32, List.length_cons, List.length_nil]
      omega
    · rw [fix_eq_truncated (by omega) (by omega) ht]
      rw [FwFile.write_len]
      simp only [List.length_cons, List.length_nil]
      omega

/-- Witness for C6 at a concrete well-formed 40-byte file
(`payload_offset = 32`, `payload_size = 8`). -/
theorem fix_preserves_length_witness :
    0x20 ≤ (FwFile.ofList ([0, 0, 0, 0, 0, 32, 0, 8] ++ List.replicate 32 0)).len ∧
      ((fix_firmware_checksum
            (FwFile.ofList ([0, 0, 0, 0, 0, 32, 0, 8] ++ List.replicate 32 0))).outcome =
          FixOutcome.ok →
        payloadOffset (FwFile.ofList ([0, 0, 0, 0, 0, 32, 0, 8] ++ List.replicate 32 0)) +
            payloadSize (FwFile.ofList ([0, 0, 0, 0, 0, 32, 0, 8] ++ List.replicate 32 0)) ≤
          (FwFile.ofList ([0, 0, 0, 0, 0, 32, 0, 8] ++ List.replicate 32 0)).len) ∧
      (fix_firmware_checksum
          (FwFile.ofList ([0, 0, 0, 0, 0, 32, 0, 8] ++ List.replicate 32 0))).file.len =
        (FwFile.ofList ([0, 0, 0, 0, 0, 32, 0, 8] ++ List.replicate 32 0)).len :=
  ⟨by decide, by decide,
    fix_preserves_length (FwFile.ofList ([0, 0, 0, 0, 0, 32, 0, 8] ++ List.replicate 32 0))
      (by decide) (by decide)⟩

/-- Counterexample to C6 as stated: a 31-byte file.  The header read
succeeds and the CRC-8 write at offset `0x1F` lands at end of file,
extending the file to 32 bytes, so the run changes the file's length. -/
theorem fix_preserves_length_cex :
    (fix_firmware_checksum (FwFile.ofList (List.replicate 31 0))).file.len ≠
      (FwFile.ofList (List.replicate 31 0)).len := by
  decide

/-- C3 (amended): on every successful run whose CRC-32 slot starts at or
above `0x20` (that is, `payload_offset + payload_size >= 0x24`, so that the
slot cannot clobber the header region or the CRC-8 byte), recomputing the
CRC-8 over bytes `[0, 0x1F)` of the patched file equals the byte stored at
offset `0x1F`. -/
theorem fix_roundtrip_crc8 (f : FwFile)
    (hok : (fix_firmware_checksum f).outcome = FixOutcome.ok)
    (hs : 0x24 ≤ payloadOffset f + payloadSize f) :
    crc8 ((fix_firmware_checksum f).file.readAt 0 0x1F) =
      (fix_firmware_checksum f).file.byte 0x1F := by
  obtain ⟨h1, h2, h3⟩ := fix_ok_inv hok
  rw [fix_eq_ok h1 h2 h3]
  dsimp only
  have hf1len : (f.write 0x1F [crc8 (f.readAt 0 0x1F)]).len = max f.len 0x20 := by
    rw [FwFile.write_len]
    rfl
  have e1 : ((f.write 0x1F [crc8 (f.readAt 0 0x1F)]).write
      (payloadOffset f + payloadSize f - 4)
      (toLE32 (crc32 ((f.write 0x1F [crc8 (f.readAt 0 0x1F)]).readAt (payloadOffset f)
        (payloadSize f - 4)) 0x04C11DB7 0 0))).readAt 0 0x1F =
      (f.write 0x1F [crc8 (f.readAt 0 0x1F)]).readAt 0 0x1F := by
    apply FwFile.readAt_write_high
    · omega
    · rw [hf1len]
      omega
  have e2 : (f.write 0x1F [crc8 (f.readAt 0 0x1F)]).readAt 0 0x1F = f.readAt 0 0x1F := by
    apply FwFile.readAt_write_high
    · omega
    · omega
  have e3 : ((f.write 0x1F [crc8 (f.readAt 0 0x1F)]).write
      (payloadOffset f + payloadSize f - 4)
      (toLE32 (crc32 ((f.write 0x1F [crc8 (f.readAt 0 0x1F)]).readAt (payloadOffset f)
        (payloadSize f - 4)) 0x04C11DB7 0 0))).byte 0x1F =
      (f.write 0x1F [crc8 (f.readAt 0 0x1F)]).byte 0x1F := by
    apply FwFile.write_byte_lt
    omega
  have e4 : (f.write 0x1F [crc8 (f.readAt 0 0x1F)]).byte 0x1F = crc8 (f.readAt 0 0x1F) := by
    rw [FwFile.write_byte_in f 0x1F _ (Nat.le_refl _) (by simp)]
    rfl
  rw [e1, e2, e3, e4]

/-- Witness for C3 at a concrete well-formed 40-byte file
(`payload_offset = 32`, `payload_size = 8`, slot at `[36, 40)`). -/
theorem fix_roundtrip_crc8_witness :
    (fix_firmware_checksum
        (FwFile.ofList ([0, 0, 0, 0, 0, 32, 0, 8] ++ List.replicate 32 0))).outcome =
      FixOutcome.ok ∧
    0x24 ≤ payloadOffset (FwFile.ofList ([0, 0, 0, 0, 0, 32, 0, 8] ++ List.replicate 32 0)) +
        payloadSize (FwFile.ofList ([0, 0, 0, 0, 0, 32, 0, 8] ++ List.replicate 32 0)) ∧
    crc8 ((fix_firmware_checksum
        (FwFile.ofList ([0, 0, 0, 0, 0, 32, 0, 8] ++ List.replicate 32 0))).file.readAt 0 0x1F) =
      (fix_firmware_checksum
        (FwFile.ofList ([0, 0, 0, 0, 0, 32, 0, 8] ++ List.replicate 32 0))).file.byte 0x1F :=
  ⟨by decide, by decide,
    fix_roundtrip_crc8 (FwFile.ofList ([0, 0, 0, 0, 0, 32, 0, 8] ++ List.replicate 32 0))
      (by decide) (by decide)⟩

set_option maxRecDepth 8192 in
/-- Counterexample to C3 as stated: a 32-byte file with `byte 0 = 1`,
`payload_offset = 0` and `payload_size = 4`.  The run succeeds, but the
CRC-32 slot `[0, 4)` overlaps the header, so the CRC-8 recomputed over
bytes `[0, 0x1F)` of the patched file no longer equals the byte stored at
offset `0x1F`. -/
theorem fix_roundtrip_crc8_cex :
    (fix_firmware_checksum
        (FwFile.ofList ([1, 0, 0, 0, 0, 0, 0, 4] ++ List.replicate 24 0))).outcome =
      FixOutcome.ok ∧
    crc8 ((fix_firmware_checksum
        (FwFile.ofList ([1, 0, 0, 0, 0, 0, 0, 4] ++ List.replicate 24 0))).file.readAt 0 0x1F) ≠
      (fix_firmware_checksum
        (FwFile.ofList ([1, 0, 0, 0, 0, 0, 0, 4] ++ List.replicate 24 0))).file.byte 0x1F :=
  ⟨by decide, by decide⟩

/-- C10: on every successful run whose payload data region
`[payload_offset, payload_offset + payload_size - 4)` contains offset
`0x1F`, the payload the CRC-32 is computed over (read after the header
write) holds the freshly written CRC-8 byte at position
`0x1F - payload_offset`, and the CRC-32 written into the slot is exactly
the CRC-32 of that payload. -/
theorem fix_crc32_covers_fresh_crc8 (f : FwFile)
    (hok : (fix_firmware_checksum f).outcome = FixOutcome.ok)
    (hpo : payloadOffset f ≤ 0x1F)
    (hin : 0x1F < payloadOffset f + (payloadSize f - 4)) :
    ((f.write 0x1F [crc8 (f.readAt 0 0x1F)]).readAt (payloadOffset f)
        (payloadSize f - 4)).getD (0x1F - payloadOffset f) 0 =
      crc8 (f.readAt 0 0x1F) ∧
    (fix_firmware_checksum f).file =
      (f.write 0x1F [crc8 (f.readAt 0 0x1F)]).write
        (payloadOffset f + payloadSize f - 4)
        (toLE32 (crc32 ((f.write 0x1F [crc8 (f.readAt 0 0x1F)]).readAt
          (payloadOffset f) (payloadSize f - 4)) 0x04C11DB7 0 0)) := by
  obtain ⟨h1, h2, h3⟩ := fix_ok_inv hok
  constructor
  · have hmin : min (payloadSize f - 4)
        ((f.write 0x1F [crc8 (f.readAt 0 0x1F)]).len - payloadOffset f) =
        payloadSize f - 4 := by
      rw [FwFile.readAt_length] at h3
      exact h3
    rw [FwFile.readAt_getD, hmin, if_pos (by omega)]
    have hidx : payloadOffset f + (0x1F - payloadOffset f) = 0x1F := by omega
    rw [hidx, FwFile.write_byte_in f 0x1F _ (Nat.le_refl _) (by simp)]
    rfl
  · rw [fix_eq_ok h1 h2 h3]

/-- Witness for C10 at a concrete 38-byte file (`payload_offset = 30`,
`payload_size = 8`: the payload data region `[30, 34)` contains `0x1F`). -/
theorem fix_crc32_covers_fresh_crc8_witness :
    (fix_firmware_checksum
        (FwFile.ofList ([0, 0, 0, 0, 0, 30, 0, 8] ++ List.replicate 30 0))).outcome =
      FixOutcome.ok ∧
    payloadOffset (FwFile.ofList ([0, 0, 0, 0, 0, 30, 0, 8] ++ List.replicate 30 0)) ≤ 0x1F ∧
    0x1F < payloadOffset (FwFile.ofList ([0, 0, 0, 0, 0, 30, 0, 8] ++ List.replicate 30 0)) +
      (payloadSize (FwFile.ofList ([0, 0, 0, 0, 0, 30, 0, 8] ++ List.replicate 30 0)) - 4) ∧
    (((FwFile.ofList ([0, 0, 0, 0, 0, 30, 0, 8] ++ List.replicate 30 0)).write 0x1F
        [crc8 ((FwFile.ofList ([0, 0, 0, 0, 0, 30, 0, 8] ++
          List.replicate 30 0)).readAt 0 0x1F)]).readAt
        (payloadOffset (FwFile.ofList ([0, 0, 0, 0, 0, 30, 0, 8] ++ List.replicate 30 0)))
        (payloadSize (FwFile.ofList ([0, 0, 0, 0, 0, 30, 0, 8] ++ List.replicate 30 0)) -
          4)).getD
        (0x1F - payloadOffset (FwFile.ofList ([0, 0, 0, 0, 0, 30, 0, 8] ++
          List.replicate 30 0))) 0 =
      crc8 ((FwFile.ofList ([0, 0, 0, 0, 0, 30, 0, 8] ++ List.replicate 30 0)).readAt 0 0x1F) :=
  ⟨by decide, by decide, by decide,
    (fix_crc32_covers_fresh_crc8
      (FwFile.ofList ([0, 0, 0, 0, 0, 30, 0, 8] ++ List.replicate 30 0))
      (by decide) (by decide) (by decide)).1⟩

/-! ## Facts about the named intermediate values, and idempotence (C4) -/

theorem afterHeader_len (f : FwFile) : (afterHeader f).len = max f.len 0x20 := by
  unfold afterHeader
  rw [FwFile.write_len]
  rfl

theorem afterHeader_readAt_header (f : FwFile) (h : 0x1F ≤ f.len) :
    (afterHeader f).readAt 0 0x1F = f.readAt 0 0x1F := by
  unfold afterHeader
  apply FwFile.readAt_write_high
  · omega
  · omega

theorem headerCrc_afterHeader (f : FwFile) (h : 0x1F ≤ f.len) :
    headerCrc (afterHeader f) = headerCrc f := by
  unfold headerCrc
  rw [afterHeader_readAt_header f h]

theorem afterHeader_byte31 (f : FwFile) : (afterHeader f).byte 0x1F = headerCrc f := by
  unfold afterHeader
  rw [FwFile.write_byte_in f 0x1F _ (Nat.le_refl _) (by simp)]
  rfl

theorem payloadOffset_afterHeader (f : FwFile) :
    payloadOffset (afterHeader f) = payloadOffset f :=
  payloadOffset_write f _ (by omega)

theorem payloadSize_afterHeader (f : FwFile) :
    payloadSize (afterHeader f) = payloadSize f :=
  payloadSize_write f _ (by omega)

theorem slotBytes_length (f : FwFile) : (slotBytes f).length = 4 := by
  unfold slotBytes toLE32
  rfl

theorem FwFile.readAt_of_same {f g : FwFile} (h : FwFile.Same f g) (pos n : Nat) :
    f.readAt pos n = g.readAt pos n := by
  apply FwFile.readAt_congr
  · rw [h.1]
  · intro i _
    exact h.2 (pos + i)

/-- Rewriting the header CRC into a file that already carries it (with at
least 32 bytes) leaves the file byte-identical. -/
theorem write_header_again {g : FwFile} (h1 : 0x20 ≤ g.len)
    (h2 : g.byte 0x1F = headerCrc g) :
    FwFile.Same (afterHeader g) g := by
  unfold afterHeader
  apply FwFile.write_same
  · simp only [List.length_cons, List.length_nil]
    omega
  · intro i hi1 hi2
    simp only [List.length_cons, List.length_nil] at hi2
    have hi : i = 0x1F := by omega
    subst hi
    simpa using h2

theorem fix_eq_sizeTooSmall' {f : FwFile} (h1 : 0x1F ≤ f.len)
    (h2 : payloadSize f < 4) :
    fix_firmware_checksum f = ⟨afterHeader f, FixOutcome.payloadSizeTooSmall⟩ :=
  fix_eq_sizeTooSmall h1 h2

theorem fix_eq_truncated' {f : FwFile} (h1 : 0x1F ≤ f.len) (h2 : 4 ≤ payloadSize f)
    (h3 : (payloadData f).length ≠ payloadSize f - 4) :
    fix_firmware_checksum f = ⟨afterHeader f, FixOutcome.payloadTruncated⟩ :=
  fix_eq_truncated h1 h2 h3

theorem fix_eq_ok' {f : FwFile} (h1 : 0x1F ≤ f.len) (h2 : 4 ≤ payloadSize f)
    (h3 : (payloadData f).length = payloadSize f - 4) :
    fix_firmware_checksum f =
      ⟨(afterHeader f).write (slotPos f) (slotBytes f), FixOutcome.ok⟩ :=
  fix_eq_ok h1 h2 h3

/-- C4 (amended): applying the patch twice yields a file byte-identical to
the one produced by the first application, for every file on which the
first run either fails, or succeeds with its CRC-32 slot starting at or
above `0x20` (`payload_offset + payload_size >= 0x24`).  (When a
successful run's slot overlaps the header, the second run recomputes a
different CRC-8 — see the counterexample.) -/
theorem fix_idempotent (f : FwFile)
    (h : (fix_firmware_checksum f).outcome = FixOutcome.ok →
      0x24 ≤ payloadOffset f + payloadSize f) :
    FwFile.Same (fix_firmware_checksum (fix_firmware_checksum f).file).file
      (fix_firmware_checksum f).file := by
  by_cases hl : f.len < 0x1F
  · rw [fix_eq_headerTooSmall hl]
    dsimp only
    rw [fix_eq_headerTooSmall hl]
    exact FwFile.Same.refl f
  · have hl' : 0x1F ≤ f.len := by omega
    have hal : (afterHeader f).len = max f.len 0x20 := afterHeader_len f
    have hahdr : (afterHeader f).readAt 0 0x1F = f.readAt 0 0x1F :=
      afterHeader_readAt_header f hl'
    have hhc : headerCrc (afterHeader f) = headerCrc f := headerCrc_afterHeader f hl'
    have hsameA : FwFile.Same (afterHeader (afterHeader f)) (afterHeader f) := by
      apply write_header_again
      · omega
      · rw [afterHeader_byte31, hhc]
    by_cases hs : payloadSize f < 4
    · rw [fix_eq_sizeTooSmall' hl' hs]
      dsimp only
      rw [fix_eq_sizeTooSmall' (by omega) (by rw [payloadSize_afterHeader]; exact hs)]
      exact hsameA
    · by_cases ht : (payloadData f).length = payloadSize f - 4
      · -- run 1 succeeds
        have hok : (fix_firmware_checksum f).outcome = FixOutcome.ok := by
          rw [fix_eq_ok' hl' (by omega) ht]
        have h36 := h hok
        have hsdef : slotPos f = payloadOffset f + payloadSize f - 4 := rfl
        have hmin : min (payloadSize f - 4) ((afterHeader f).len - payloadOffset f) =
            payloadSize f - 4 := by
          have h0 := ht
          unfold payloadData at h0
          rw [FwFile.readAt_length] at h0
          exact h0
        rw [fix_eq_ok' hl' (by omega) ht]
        dsimp only
        have hF1len : ((afterHeader f).write (slotPos f) (slotBytes f)).len =
            max (afterHeader f).len (slotPos f + 4) := by
          rw [FwFile.write_len, slotBytes_length]
        have hF1len32 : 0x1F ≤ ((afterHeader f).write (slotPos f) (slotBytes f)).len := by
          rw [hF1len]
          omega
        have hF1hdr : ((afterHeader f).write (slotPos f) (slotBytes f)).readAt 0 0x1F =
            f.readAt 0 0x1F := by
          rw [← hahdr]
          apply FwFile.readAt_write_high
          · omega
          · omega
        have hF1hc : headerCrc ((afterHeader f).write (slotPos f) (slotBytes f)) =
            headerCrc f := by
          unfold headerCrc
          rw [hF1hdr]
        have hF1po : payloadOffset ((afterHeader f).write (slotPos f) (slotBytes f)) =
            payloadOffset f := by
          rw [payloadOffset_write _ _ (by omega), payloadOffset_afterHeader]
        have hF1ps : payloadSize ((afterHeader f).write (slotPos f) (slotBytes f)) =
            payloadSize f := by
          rw [payloadSize_write _ _ (by omega), payloadSize_afterHeader]
        have hF1b31 : ((afterHeader f).write (slotPos f) (slotBytes f)).byte 0x1F =
            headerCrc f := by
          rw [FwFile.write_byte_lt _ _ _ (by omega), afterHeader_byte31]
        have hsame2 : FwFile.Same
            (afterHeader ((afterHeader f).write (slotPos f) (slotBytes f)))
            ((afterHeader f).write (slotPos f) (slotBytes f)) := by
          apply write_header_again
          · rw [hF1len]
            omega
          · rw [hF1b31, hF1hc]
        have hpd : payloadData ((afterHeader f).write (slotPos f) (slotBytes f)) =
            payloadData f := by
          unfold payloadData
          rw [hF1po, hF1ps, FwFile.readAt_of_same hsame2]
          apply FwFile.readAt_congr
          · rw [hF1len]
            omega
          · intro i hi
            rw [FwFile.write_byte_lt]
            omega
        have hsbg : ∀ g : FwFile,
            slotBytes g = toLE32 (crc32 (payloadData g) 0x04C11DB7 0 0) := fun g => rfl
        have hspg : ∀ g : FwFile,
            slotPos g = payloadOffset g + payloadSize g - 4 := fun g => rfl
        have hsb : slotBytes ((afterHeader f).write (slotPos f) (slotBytes f)) =
            slotBytes f := by
          rw [hsbg ((afterHeader f).write (slotPos f) (slotBytes f)), hpd, ← hsbg f]
        have hsp : slotPos ((afterHeader f).write (slotPos f) (slotBytes f)) =
            slotPos f := by
          rw [hspg ((afterHeader f).write (slotPos f) (slotBytes f)), hF1po, hF1ps, hsdef]
        have hlen2 : (payloadData ((afterHeader f).write (slotPos f) (slotBytes f))).length =
            payloadSize ((afterHeader f).write (slotPos f) (slotBytes f)) - 4 := by
          rw [hpd, hF1ps]
          exact ht
        rw [fix_eq_ok' hF1len32 (by rw [hF1ps]; omega) hlen2]
        dsimp only
        rw [hsb, hsp]
        constructor
        · rw [FwFile.write_len, slotBytes_length, hsame2.1, hF1len]
          omega
        · intro i
          rw [FwFile.write_byte, slotBytes_length]
          split_ifs with hi
          · exact (FwFile.write_byte_in (afterHeader f) (slotPos f) (slotBytes f) hi.1
              (by rw [slotBytes_length]; omega)).symm
          · exact hsame2.2 i
      · -- run 1 fails on the truncated payload read
        rw [fix_eq_truncated' hl' (by omega) ht]
        dsimp only
        have hpdA : payloadData (afterHeader f) = payloadData f := by
          unfold payloadData
          rw [payloadOffset_afterHeader, payloadSize_afterHeader,
            FwFile.readAt_of_same hsameA]
        rw [fix_eq_truncated' (by omega) (by rw [payloadSize_afterHeader]; omega)
          (by rw [hpdA, payloadSize_afterHeader]; exact ht)]
        exact hsameA

/-- Witness for C4 at a concrete well-formed 40-byte file
(`payload_offset = 32`, `payload_size = 8`, a successful run). -/
theorem fix_idempotent_witness :
    ((fix_firmware_checksum
          (FwFile.ofList ([0, 0, 0, 0, 0, 32, 0, 8] ++ List.replicate 32 0))).outcome =
        FixOutcome.ok →
      0x24 ≤ payloadOffset (FwFile.ofList ([0, 0, 0, 0, 0, 32, 0, 8] ++ List.replicate 32 0)) +
        payloadSize (FwFile.ofList ([0, 0, 0, 0, 0, 32, 0, 8] ++ List.replicate 32 0))) ∧
    FwFile.Same
      (fix_firmware_checksum
        (fix_firmware_checksum
          (FwFile.ofList ([0, 0, 0, 0, 0, 32, 0, 8] ++ List.replicate 32 0))).file).file
      (fix_firmware_checksum
        (FwFile.ofList ([0, 0, 0, 0, 0, 32, 0, 8] ++ List.replicate 32 0))).file :=
  ⟨by decide,
    fix_idempotent (FwFile.ofList ([0, 0, 0, 0, 0, 32, 0, 8] ++ List.replicate 32 0))
      (by decide)⟩

set_option maxRecDepth 16384 in
/-- Counterexample to C4 as stated: a 32-byte file with `byte 0 = 2`,
`payload_offset = 0` and `payload_size = 4`.  The first run succeeds but
its CRC-32 slot `[0, 4)` overwrites the header, so the second run computes
a different header CRC-8 and changes byte `0x1F` again: the double
application is not byte-identical to the single one. -/
theorem fix_idempotent_cex :
    (fix_firmware_checksum
        (FwFile.ofList ([2, 0, 0, 0, 0, 0, 0, 4] ++ List.replicate 24 0))).outcome =
      FixOutcome.ok ∧
    (fix_firmware_checksum
        (fix_firmware_checksum
          (FwFile.ofList ([2, 0, 0, 0, 0, 0, 0, 4] ++
            List.replicate 24 0))).file).file.byte 0x1F ≠
      (fix_firmware_checksum
        (FwFile.ofList ([2, 0, 0, 0, 0, 0, 0, 4] ++ List.replicate 24 0))).file.byte 0x1F :=
  ⟨by decide, by decide⟩
